import Mathlib

/-!
Verification of the `garden-sea` self-extracting launcher
(`src/garden-sea/src/{extract,cleanup,node,main}.rs`) against its
natural-language specification.

The Rust code is shallowly embedded: the root directory's contents become an
explicit `List RootEntry` state, fallible filesystem operations are driven by
boolean oracles (modelling which OS calls succeed on this run), and the
clock/RNG pair that names new generation directories becomes an explicit
supply of `(seconds, suffix)` pairs (which also bounds the
collision-retry recursion of `extract_archives_if_needed`).
-/

namespace GardenSea

/-! ### Decimal formatting

Embeds Rust's `format!("{}", n)` for a `u64`: the usual decimal
representation, most significant digit first, with no left padding. -/

/-- Big-endian decimal digits of `n`; the first argument is fuel (taking
`fuel = n` is always enough, since `n / 10 < n` for `n ≠ 0`). Empty for 0. -/
def digitsAux : Nat → Nat → List Nat
  | 0, _ => []
  | fuel + 1, n => if n = 0 then [] else digitsAux fuel (n / 10) ++ [n % 10]

/-- Big-endian decimal digit list of `n`, `[0]` for 0. -/
def natDecimalDigitsN (n : Nat) : List Nat :=
  if n = 0 then [0] else digitsAux n n

/-- The ASCII character of a decimal digit. -/
def digitChar (d : Nat) : Char := Char.ofNat (48 + d)

/-- The character string of the decimal representation of `n`. -/
def natDecimalDigits (n : Nat) : List Char :=
  (natDecimalDigitsN n).map digitChar

/-- Value of a big-endian digit list. -/
def ofDigitsBE : List Nat → Nat
  | [] => 0
  | d :: ds => d * 10 ^ ds.length + ofDigitsBE ds

theorem ofDigitsBE_append_singleton (l : List Nat) (d : Nat) :
    ofDigitsBE (l ++ [d]) = 10 * ofDigitsBE l + d := by
  induction l with
  | nil => simp [ofDigitsBE]
  | cons x xs ih =>
      show x * 10 ^ (xs ++ [d]).length + ofDigitsBE (xs ++ [d])
          = 10 * (x * 10 ^ xs.length + ofDigitsBE xs) + d
      rw [ih, List.length_append, List.length_singleton]
      ring

theorem ofDigitsBE_digitsAux (fuel n : Nat) (h : n ≤ fuel) :
    ofDigitsBE (digitsAux fuel n) = n := by
  induction fuel generalizing n with
  | zero =>
      interval_cases n
      simp [digitsAux, ofDigitsBE]
  | succ fuel ih =>
      by_cases hn : n = 0
      · simp [digitsAux, hn, ofDigitsBE]
      · have hdiv : n / 10 ≤ fuel := by omega
        rw [digitsAux, if_neg hn, ofDigitsBE_append_singleton, ih _ hdiv,
          Nat.div_add_mod]

theorem ofDigitsBE_natDecimalDigitsN (n : Nat) :
    ofDigitsBE (natDecimalDigitsN n) = n := by
  by_cases hn : n = 0
  · simp [natDecimalDigitsN, hn, ofDigitsBE]
  · rw [natDecimalDigitsN, if_neg hn, ofDigitsBE_digitsAux n n le_rfl]

theorem digitsAux_lt_ten (fuel n : Nat) :
    ∀ d ∈ digitsAux fuel n, d < 10 := by
  induction fuel generalizing n with
  | zero => simp [digitsAux]
  | succ fuel ih =>
      by_cases hn : n = 0
      · simp [digitsAux, hn]
      · rw [digitsAux, if_neg hn]
        intro d hd
        rcases List.mem_append.mp hd with h | h
        · exact ih _ d h
        · simp only [List.mem_singleton] at h
          subst h
          exact Nat.mod_lt _ (by decide)

theorem natDecimalDigitsN_lt_ten (n : Nat) :
    ∀ d ∈ natDecimalDigitsN n, d < 10 := by
  by_cases hn : n = 0
  · simp [natDecimalDigitsN, hn]
  · rw [natDecimalDigitsN, if_neg hn]
    exact digitsAux_lt_ten n n

theorem ofDigitsBE_lt_pow (l : List Nat) (h : ∀ d ∈ l, d < 10) :
    ofDigitsBE l < 10 ^ l.length := by
  induction l with
  | nil => simp [ofDigitsBE]
  | cons d ds ih =>
      have hd : d < 10 := h d (List.mem_cons_self _ _)
      have hds : ofDigitsBE ds < 10 ^ ds.length :=
        ih fun x hx => h x (List.mem_cons_of_mem _ hx)
      calc d * 10 ^ ds.length + ofDigitsBE ds
          < d * 10 ^ ds.length + 10 ^ ds.length := by omega
        _ = (d + 1) * 10 ^ ds.length := by ring
        _ ≤ 10 * 10 ^ ds.length := Nat.mul_le_mul_right _ hd
        _ = 10 ^ (ds.length + 1) := by ring

/-! ### Byte-wise lexicographic comparison

`directories.sort()` in `find_existing_extract_dirs` sorts `PathBuf`s; for
sibling entries of one root this is byte-wise lexicographic order of the
file names (all names involved are ASCII, so char-wise order coincides). -/

/-- Strict character comparison, by code point. -/
def charLtB (a b : Char) : Bool := a.toNat < b.toNat

/-- Strict lexicographic comparison on character lists. -/
def lexLt : List Char → List Char → Bool
  | [], [] => false
  | [], _ :: _ => true
  | _ :: _, [] => false
  | a :: as, b :: bs =>
      if charLtB a b then true
      else if charLtB b a then false
      else lexLt as bs

/-- Strict lexicographic comparison on names (strings). -/
def strLtB (a b : String) : Bool := lexLt a.data b.data

theorem lexLt_append_of_eqlen (p₁ p₂ r₁ r₂ : List Char)
    (hlen : p₁.length = p₂.length) (h : lexLt p₁ p₂ = true) :
    lexLt (p₁ ++ r₁) (p₂ ++ r₂) = true := by
  induction p₁ generalizing p₂ with
  | nil =>
      cases p₂ with
      | nil => simp [lexLt] at h
      | cons b bs => simp at hlen
  | cons a as ih =>
      cases p₂ with
      | nil => simp at hlen
      | cons b bs =>
          simp only [List.length_cons, Nat.succ.injEq] at hlen
          simp only [List.cons_append]
          rw [lexLt] at h ⊢
          by_cases hab : charLtB a b
          · simp [hab]
          · rw [if_neg hab] at h ⊢
            by_cases hba : charLtB b a
            · rw [if_pos hba] at h
              exact absurd h (by simp)
            · rw [if_neg hba] at h ⊢
              exact ih bs hlen h

theorem digitChar_toNat (d : Nat) (h : d < 10) :
    (digitChar d).toNat = 48 + d := by
  interval_cases d <;> decide

theorem charLtB_digitChar (d₁ d₂ : Nat) (h₁ : d₁ < 10) (h₂ : d₂ < 10) :
    charLtB (digitChar d₁) (digitChar d₂) = decide (d₁ < d₂) := by
  simp [charLtB, digitChar_toNat d₁ h₁, digitChar_toNat d₂ h₂]

theorem lexLt_map_digitChar (l₁ l₂ : List Nat)
    (h₁ : ∀ d ∈ l₁, d < 10) (h₂ : ∀ d ∈ l₂, d < 10)
    (hlen : l₁.length = l₂.length)
    (hval : ofDigitsBE l₁ < ofDigitsBE l₂) :
    lexLt (l₁.map digitChar) (l₂.map digitChar) = true := by
  induction l₁ generalizing l₂ with
  | nil =>
      cases l₂ with
      | nil => simp [ofDigitsBE] at hval
      | cons b bs => simp at hlen
  | cons a as ih =>
      cases l₂ with
      | nil => simp at hlen
      | cons b bs =>
          simp only [List.length_cons, Nat.succ.injEq] at hlen
          have ha : a < 10 := h₁ a (List.mem_cons_self _ _)
          have hb : b < 10 := h₂ b (List.mem_cons_self _ _)
          have has : ∀ d ∈ as, d < 10 := fun d hd => h₁ d (List.mem_cons_of_mem _ hd)
          have hbs : ∀ d ∈ bs, d < 10 := fun d hd => h₂ d (List.mem_cons_of_mem _ hd)
          simp only [List.map_cons]
          rw [lexLt, charLtB_digitChar a b ha hb, charLtB_digitChar b a hb ha]
          rcases Nat.lt_trichotomy a b with hab | hab | hab
          · simp [hab]
          · subst hab
            simp only [decide_eq_true_eq, lt_irrefl, decide_False, if_false]
            apply ih bs has hbs hlen
            simp only [ofDigitsBE, hlen] at hval
            omega
          · exfalso
            have hvas : ofDigitsBE as < 10 ^ as.length := ofDigitsBE_lt_pow as has
            have hvbs : ofDigitsBE bs < 10 ^ bs.length := ofDigitsBE_lt_pow bs hbs
            simp only [ofDigitsBE] at hval
            have hba1 : b + 1 ≤ a := hab
            have : (b + 1) * 10 ^ bs.length ≤ a * 10 ^ as.length := by
              rw [hlen]
              exact Nat.mul_le_mul_right _ hba1
            have : b * 10 ^ bs.length + 10 ^ bs.length ≤ a * 10 ^ as.length := by
              calc b * 10 ^ bs.length + 10 ^ bs.length = (b + 1) * 10 ^ bs.length := by ring
                _ ≤ a * 10 ^ as.length := this
            omega

/-! ### Generation directory names (`extract.rs` lines 28--35)

`format!("{}-{}.r", current_time.as_secs(), s)`. -/

/-- The directory name synthesized for a new generation:
decimal seconds since the epoch, a dash, the random suffix, and the
`.r` marker tag. -/
def genDirName (t : Nat) (s : String) : String :=
  ⟨(natDecimalDigits t ++ ('-' :: s.data)) ++ ['.', 'r']⟩

/-- Rust `path.extension() == Some("r")`: the name ends in `".r"` and the
final dot is not its first character. -/
def hasDotRExt (name : String) : Bool :=
  match name.data.reverse with
  | 'r' :: '.' :: _ :: _ => true
  | _ => false

theorem hasDotRExt_genDirName (t : Nat) (s : String) :
    hasDotRExt (genDirName t s) = true := by
  have hrev : (genDirName t s).data.reverse
      = 'r' :: '.' :: (natDecimalDigits t ++ ('-' :: s.data)).reverse := by
    show ((natDecimalDigits t ++ ('-' :: s.data)) ++ ['.', 'r']).reverse = _
    rw [List.reverse_append]
    rfl
  have hne : (natDecimalDigits t ++ ('-' :: s.data)).reverse ≠ [] := by
    simp
  rw [hasDotRExt, hrev]
  cases hcase : (natDecimalDigits t ++ ('-' :: s.data)).reverse with
  | nil => exact absurd hcase hne
  | cons c cs => rfl

/-! ### Artifact model (`artifacts.rs`)

An artifact is a name together with its expected digest bytes. The archive
payload itself is opaque to the launcher (the tar/gzip container is an
external collaborator), so it is not represented; whether unpacking a
payload succeeds is decided by the filesystem oracle below. -/

/-- One embedded artifact: its short name and its compiled-in digest. -/
structure GardenArtifact where
  name : String
  sha256 : List Nat
  deriving DecidableEq

/-- The build-supplied artifact store: the four embedded artifacts
`NODE_BINARY`, `NATIVE_MODULES`, `STATIC`, `SOURCE` of `artifacts.rs`. -/
structure ArtifactStore where
  node_binary : GardenArtifact
  native_modules : GardenArtifact
  static : GardenArtifact
  source : GardenArtifact
  deriving DecidableEq

/-- In `artifacts.rs` the four artifact names are the fixed literals
`"bin"`, `"native"`, `"static"` and `"source"` on every platform. -/
def ArtifactStore.standardNames (st : ArtifactStore) : Prop :=
  st.node_binary.name = "bin" ∧ st.native_modules.name = "native" ∧
    st.static.name = "static" ∧ st.source.name = "source"

instance (st : ArtifactStore) : Decidable st.standardNames := by
  unfold ArtifactStore.standardNames
  infer_instance

/-! ### Filesystem model

The state of the shared root directory: a list of entries, each either a
(generation) directory with its contained files, or a plain file. A
directory additionally records which artifacts have been unpacked into it,
standing for the unpacked archive contents. -/

/-- A directory under the root: its name, its small files (name and byte
contents; the digest markers live here) and the names of the artifacts whose
archives have been unpacked into it. -/
structure GenDir where
  name : String
  files : List (String × List Nat)
  unpacked : List String
  deriving DecidableEq

/-- An entry of the root directory. -/
inductive RootEntry where
  | dir (g : GenDir)
  | file (name : String)
  deriving DecidableEq

/-- The contents of the root directory. -/
abbrev FsState := List RootEntry

/-- First value bound to `k` in an association list. -/
def getAssoc : List (String × List Nat) → String → Option (List Nat)
  | [], _ => none
  | (k', v) :: rest, k => if k' = k then some v else getAssoc rest k

/-- Set `k` to `v`: replace the first binding, or append one. -/
def setAssoc : List (String × List Nat) → String → List Nat → List (String × List Nat)
  | [], k, v => [(k, v)]
  | (k', v') :: rest, k, v =>
      if k' = k then (k, v) :: rest else (k', v') :: setAssoc rest k v

/-- The first directory entry named `d`. -/
def lookupDir : FsState → String → Option GenDir
  | [], _ => none
  | .dir g :: rest, d => if g.name = d then some g else lookupDir rest d
  | .file _ :: rest, d => lookupDir rest d

/-- Apply `f` to the first directory entry named `d` (no-op if absent). -/
def updateDir : FsState → String → (GenDir → GenDir) → FsState
  | [], _, _ => []
  | .dir g :: rest, d, f =>
      if g.name = d then .dir (f g) :: rest else .dir g :: updateDir rest d f
  | .file n :: rest, d, f => .file n :: updateDir rest d f

/-- `fs::create_dir_all` for a fresh generation directory under the root. -/
def createDir (st : FsState) (d : String) : FsState :=
  st ++ [.dir ⟨d, [], []⟩]

/-- Write file `fname` with contents `v` inside directory `d`. -/
def writeFile (st : FsState) (d fname : String) (v : List Nat) : FsState :=
  updateDir st d fun g => { g with files := setAssoc g.files fname v }

/-- Record that artifact `aname`'s archive was unpacked into directory `d`. -/
def markUnpacked (st : FsState) (d aname : String) : FsState :=
  updateDir st d fun g => { g with unpacked := g.unpacked ++ [aname] }

/-- Contents of file `fname` inside directory `d`, if both exist. -/
def readFileIn (st : FsState) (d fname : String) : Option (List Nat) :=
  (lookupDir st d).bind fun g => getAssoc g.files fname

/-- Rust `checksum_file.exists()`. -/
def fileExistsIn (st : FsState) (d fname : String) : Bool :=
  (readFileIn st d fname).isSome

/-- Whether a directory named `d` exists under the root. -/
def dirExistsIn (st : FsState) (d : String) : Bool :=
  (lookupDir st d).isSome

/-- Rust `extract_path.exists()`: any entry (file or directory) named `d`. -/
def entryExists (st : FsState) (d : String) : Bool :=
  st.any fun e => match e with
    | .dir g => g.name = d
    | .file n => n = d

/-- The artifacts unpacked into directory `d`. -/
def unpackedIn (st : FsState) (d : String) : List String :=
  match lookupDir st d with
  | none => []
  | some g => g.unpacked

/-! ### `extract.rs` -/

/-- Oracle fixing which fallible filesystem operations succeed during this
run: `readOk d f` for `fs::read` of file `f` in directory `d`, `unpackOk d a`
for `archive.unpack` of artifact `a` into `d`, and `writeOk d f` for
creating and writing the marker file `f` in `d`. -/
structure FsOracle where
  readOk : String → String → Bool
  unpackOk : String → String → Bool
  writeOk : String → String → Bool

/-- Insert a name into a list sorted by `strLtB` (byte-wise lexicographic
order), keeping it sorted. -/
def insertName (x : String) : List String → List String
  | [] => [x]
  | y :: ys => if strLtB y x then y :: insertName x ys else x :: y :: ys

/-- `directories.sort()`: sort names lexicographically. -/
def sortNames : List String → List String
  | [] => []
  | x :: xs => insertName x (sortNames xs)

/-- The names of the directories under the root whose name carries the `.r`
marker tag, in listing order. -/
def rDirNames (st : FsState) : List String :=
  st.filterMap fun e => match e with
    | .dir g => if hasDotRExt g.name then some g.name else none
    | .file _ => none

/-- `find_existing_extract_dirs`: list the `.r` directories, sort by name,
pop the last as the candidate latest; the rest are the cleanup candidates. -/
def find_existing_extract_dirs (st : FsState) : Option String × List String :=
  let directories := sortNames (rDirNames st)
  (directories.getLast?, directories.dropLast)

/-- The marker file name for an artifact: `format!("{}.sha256sum", name)`. -/
def markerName (a : GardenArtifact) : String :=
  a.name ++ ".sha256sum"

/-- `is_extract_needed`: the artifact needs extraction if its digest marker
file is absent or its bytes differ from the expected digest; a marker that
exists but cannot be read is a propagated error (`fs::read(..)?`). -/
def is_extract_needed (orc : FsOracle) (st : FsState) (d : String)
    (artifact : GardenArtifact) : Except String Bool :=
  if fileExistsIn st d (markerName artifact) = false then
    .ok true
  else if orc.readOk d (markerName artifact) then
    if readFileIn st d (markerName artifact) = some artifact.sha256 then
      .ok false
    else
      .ok true
  else
    .error "Failed read"

/-- `extracts_needed`: short-circuit disjunction over the four artifacts,
propagating the first error (`a? || b? || c? || d?`). -/
def extracts_needed (orc : FsOracle) (st : FsState) (d : String)
    (store : ArtifactStore) : Except String Bool :=
  match is_extract_needed orc st d store.node_binary with
  | .error e => .error e
  | .ok true => .ok true
  | .ok false =>
    match is_extract_needed orc st d store.native_modules with
    | .error e => .error e
    | .ok true => .ok true
    | .ok false =>
      match is_extract_needed orc st d store.static with
      | .error e => .error e
      | .ok true => .ok true
      | .ok false => is_extract_needed orc st d store.source

/-- `extract_archive`: unpack the artifact's archive into the directory and,
only if that succeeded, create and write its digest marker file with exactly
the expected digest bytes. Either step failing is a propagated error. -/
def extract_archive (orc : FsOracle) (d : String) (artifact : GardenArtifact)
    (st : FsState) : Except String FsState :=
  if orc.unpackOk d artifact.name then
    if orc.writeOk d (markerName artifact) then
      .ok (writeFile (markUnpacked st d artifact.name) d (markerName artifact)
        artifact.sha256)
    else
      .error ("Failed to write checksum file " ++ markerName artifact)
  else
    .error ("Failed to extract archive " ++ artifact.name)

instance {ε α : Type} [DecidableEq ε] [DecidableEq α] :
    DecidableEq (Except ε α) := fun a b =>
  match a, b with
  | .error e, .error e' =>
      if h : e = e' then .isTrue (by rw [h]) else .isFalse (by simp [h])
  | .ok x, .ok y =>
      if h : x = y then .isTrue (by rw [h]) else .isFalse (by simp [h])
  | .error _, .ok _ => .isFalse (by simp)
  | .ok _, .error _ => .isFalse (by simp)

/-- Result of `extract_archives_if_needed`: the generation directory
returned to the caller, the resulting root contents, and the list of
directories handed to `start_cleanup_thread`. -/
structure ExtractResult where
  current : String
  fs : FsState
  cleanupDirs : List String
  deriving DecidableEq

/-- The first half of `extract_archives_if_needed`: test the candidate
latest. `ok none` when a new generation is needed (no candidate, or the
candidate failed the validity check), `ok (some p)` when the candidate `p`
is fully valid, and an error when the check itself failed. -/
def check_latest (store : ArtifactStore) (orc : FsOracle) (st : FsState) :
    Except String (Option String) :=
  match (find_existing_extract_dirs st).1 with
  | none => .ok none
  | some p =>
      match extracts_needed orc st p store with
      | .error e => .error e
      | .ok needed => .ok (if needed then none else some p)

/-- The re-extraction path of `extract_archives_if_needed`: create the new
directory and extract the four artifacts into it, in the fixed source order
`NODE_BINARY`, `NATIVE_MODULES`, `STATIC`, `SOURCE`, stopping at the first
error. -/
def extract_new_generation (store : ArtifactStore) (orc : FsOracle)
    (dirname : String) (st : FsState) : Except String FsState :=
  match extract_archive orc dirname store.node_binary (createDir st dirname) with
  | .error e => .error e
  | .ok st2 =>
    match extract_archive orc dirname store.native_modules st2 with
    | .error e => .error e
    | .ok st3 =>
      match extract_archive orc dirname store.static st3 with
      | .error e => .error e
      | .ok st4 =>
        match extract_archive orc dirname store.source st4 with
        | .error e => .error e
        | .ok st5 => .ok st5

/-- The name-synthesis loop of `extract_archives_if_needed`. `fresh`
supplies the `(seconds, suffix)` pair the clock and RNG produce at each
synthesis. When the synthesized name already exists, the Rust code calls
the whole of `extract_archives_if_needed` again; nothing has been written
to the root at that point, so the re-run sees the same directories, its
validity check deterministically reaches the re-extraction path again, and
the only effect of the retry is to consume the next fresh pair — which is
what this loop does (`extract_retry_unfold` below records the agreement).
The supply running dry is modelled as an error the Rust code cannot hit,
the RNG being unbounded. -/
def extract_fresh_loop (store : ArtifactStore) (orc : FsOracle) :
    List (Nat × String) → FsState → Except String ExtractResult
  | [], _ => .error "fresh name supply exhausted"
  | (t, s) :: rest, st =>
    if entryExists st (genDirName t s) then
      extract_fresh_loop store orc rest st
    else
      match extract_new_generation store orc (genDirName t s) st with
      | .error e => .error e
      | .ok st5 =>
          .ok ⟨genDirName t s, st5, (find_existing_extract_dirs st).2⟩

/-- `extract_archives_if_needed`: return the candidate latest when it passes
the validity check, otherwise synthesize a name and extract a new
generation; either way the older directories are handed to the cleanup
thread. -/
def extract_archives_if_needed (store : ArtifactStore) (orc : FsOracle)
    (fresh : List (Nat × String)) (st : FsState) : Except String ExtractResult :=
  match check_latest store orc st with
  | .error e => .error e
  | .ok (some p) => .ok ⟨p, st, (find_existing_extract_dirs st).2⟩
  | .ok none => extract_fresh_loop store orc fresh st

/-- The flattened retry loop agrees with the Rust source's
retry-the-whole-function shape: when the validity check has decided that a
new generation is needed, re-entering `extract_archives_if_needed` with the
unchanged root and the remaining fresh pairs is the same as continuing the
loop. -/
theorem extract_retry_unfold (store : ArtifactStore) (orc : FsOracle)
    (rest : List (Nat × String)) (st : FsState)
    (h : check_latest store orc st = .ok none) :
    extract_archives_if_needed store orc rest st =
      extract_fresh_loop store orc rest st := by
  rw [extract_archives_if_needed, h]

/-! ### `cleanup.rs`

`start_cleanup_thread` spawns a thread that loops over the candidate
directories; the loop body is pure decision logic over two fallible
platform operations, so the sweep is embedded as the function computing the
list of directories it removes. Errors of either operation are logged with
`debug!` and swallowed. -/

/-- Oracle for the sweep's two fallible operations: `is_directory_used`
(which can itself fail) and `std::fs::remove_dir_all`. -/
structure CleanupEnv where
  inUse : String → Except String Bool
  removeOk : String → Bool

/-- The body of `start_cleanup_thread`'s thread: for each candidate
directory that is not the current one, determine whether it is in use
(skipping it when that fails or reports true), then try to remove it
(failures are logged and ignored). Returns the directories removed. -/
def cleanup_sweep (env : CleanupEnv) (cleanup_dirs : List String)
    (current_dir : String) : List String :=
  match cleanup_dirs with
  | [] => []
  | dir :: rest =>
    if dir ≠ current_dir then
      match env.inUse dir with
      | .ok true => cleanup_sweep env rest current_dir
      | .ok false =>
          if env.removeOk dir then
            dir :: cleanup_sweep env rest current_dir
          else
            cleanup_sweep env rest current_dir
      | .error _ => cleanup_sweep env rest current_dir
    else
      cleanup_sweep env rest current_dir

/-! ### `node.rs` / `main.rs`: spawning, waiting, exit code -/

/-- `main.rs`: `const EXIT_GARDEN_SEA_ERROR: i32 = 11`. -/
def EXIT_GARDEN_SEA_ERROR : Int := 11

/-- Outcome of `node::wait` as observed by `main`: the waiter thread
panicked (its `expect` fired on a failed OS wait, and the `expect` on
`thread.join()` re-raises it), or `wait` returned `Err` (the signal-handler
installation failed), or it returned `Ok` with the child's exit code when
one was available. -/
inductive WaitResult where
  | panicked
  | failed (e : String)
  | ok (code : Option Int)
  deriving DecidableEq

/-- `node::wait`: `installOk` is whether `signal::set_console_ctrl_handler`
succeeds, `osWait` the outcome of the OS-level `child.wait()` together with
`ExitStatus::code()` (`some c` when the child exited with code `c`, `none`
when it was terminated by a signal and no code is recoverable). The waiter
thread applies `.expect` to the OS wait result, so an `Err` there panics
rather than degrading; when the handler installation fails, `wait` returns
`Err` before joining the thread. -/
def wait (installOk : Bool) (osWait : Except String (Option Int)) : WaitResult :=
  if installOk then
    match osWait with
    | .error _ => .panicked
    | .ok code => .ok code
  else
    .failed "set_console_ctrl_handler"

/-- The launcher's own process exit code as decided at the end of `main`:
`exit(exit_code.unwrap_or(EXIT_GARDEN_SEA_ERROR))`. `none` stands for the
abnormal endings (panic, or an error reported through `eyre`). -/
def main_exit_code (w : WaitResult) : Option Int :=
  match w with
  | .ok code => some (code.getD EXIT_GARDEN_SEA_ERROR)
  | _ => none

/-- The environment variables consulted by `spawn_garden` when assembling
the child's argument vector (`None` models an unset variable). -/
structure SpawnEnv where
  flamegraph : Option String
  max_old_space_size : Option String
  max_semi_space_size : Option String
  node_extra_params : Option String

/-- `Path::join` (paths here are plain strings; the unix separator). -/
def pathJoin (p q : String) : String := p ++ "/" ++ q

/-- `spawn_garden`'s program and argument-vector assembly (the unix
variant, `node = "bin/node"`): optional flame-graph wrapping, the heap
flags, `--no-deprecation`, the comma-split extra parameters, the
`rollup/garden.mjs` script path, then the caller-supplied arguments with
their first element (the launcher's own program name) skipped. -/
def spawn_args (genv : SpawnEnv) (path : String) (sea_args : List String) :
    String × List String :=
  let node := "bin/node"
  let render_flame_graph := genv.flamegraph.getD "false"
  let (program, args0) :=
    if render_flame_graph = "true" ∨ render_flame_graph = "1" then
      ("npx", ["0x", "--", pathJoin path node])
    else
      (pathJoin path node, ([] : List String))
  let max_old_space_size := genv.max_old_space_size.getD "4096"
  let max_semi_space_size := genv.max_semi_space_size.getD "64"
  let args1 := args0 ++
    ["--max-semi-space-size=" ++ max_semi_space_size,
     "--max-old-space-size=" ++ max_old_space_size,
     "--no-deprecation"]
  let node_extra_params :=
    match genv.node_extra_params with
    | none => []
    | some value => value.splitOn ","
  let args2 := args1 ++ node_extra_params
  let args3 := args2 ++ [pathJoin (pathJoin path "rollup") "garden.mjs"]
  let args4 := args3 ++ sea_args.drop 1
  (program, args4)

/-- Everything `spawn_garden` places before the `garden.mjs` script path in
the child's argument vector. -/
def node_args_before_script (genv : SpawnEnv) (path : String) : List String :=
  let node := "bin/node"
  let render_flame_graph := genv.flamegraph.getD "false"
  let args0 : List String :=
    if render_flame_graph = "true" ∨ render_flame_graph = "1" then
      ["0x", "--", pathJoin path node]
    else
      []
  let max_old_space_size := genv.max_old_space_size.getD "4096"
  let max_semi_space_size := genv.max_semi_space_size.getD "64"
  let node_extra_params :=
    match genv.node_extra_params with
    | none => []
    | some value => value.splitOn ","
  args0 ++
    ["--max-semi-space-size=" ++ max_semi_space_size,
     "--max-old-space-size=" ++ max_old_space_size,
     "--no-deprecation"] ++ node_extra_params

/-! ### Cleanup sweep lemmas -/

theorem cleanup_sweep_not_removed (env : CleanupEnv) (cur d : String)
    (h : env.inUse d ≠ .ok false ∨ env.removeOk d = false) :
    ∀ dirs, d ∉ cleanup_sweep env dirs cur := by
  intro dirs
  induction dirs with
  | nil => simp [cleanup_sweep]
  | cons x rest ih =>
      rw [cleanup_sweep]
      by_cases hx : x ≠ cur
      · rw [if_pos hx]
        cases henv : env.inUse x with
        | error e => exact ih
        | ok b =>
            cases b with
            | true => exact ih
            | false =>
                cases hr : env.removeOk x with
                | false => simp only [hr, Bool.false_eq_true, if_false]; exact ih
                | true =>
                    simp only [hr, if_true]
                    intro hmem
                    rcases List.mem_cons.mp hmem with rfl | hm
                    · rcases h with h | h
                      · exact h henv
                      · rw [h] at hr; cases hr
                    · exact ih hm
      · rw [if_neg hx]
        exact ih

/-- C6: the Cleanup Sweeper never deletes the directory selected as current
for this launch, and deletes only members of the stale-directory list it was
handed: for every list and current directory, the set of directories it
removes is a subset of the candidate list not containing the current one. -/
theorem cleanup_sweep_frame (env : CleanupEnv) (cleanup_dirs : List String)
    (current_dir : String) :
    current_dir ∉ cleanup_sweep env cleanup_dirs current_dir ∧
    cleanup_sweep env cleanup_dirs current_dir ⊆ cleanup_dirs := by
  induction cleanup_dirs with
  | nil => exact ⟨by simp [cleanup_sweep], by simp [cleanup_sweep]⟩
  | cons d rest ih =>
      rw [cleanup_sweep]
      have hsub : cleanup_sweep env rest current_dir ⊆ d :: rest :=
        fun x hx => List.mem_cons_of_mem _ (ih.2 hx)
      by_cases hd : d ≠ current_dir
      · rw [if_pos hd]
        cases henv : env.inUse d with
        | error e => exact ⟨ih.1, hsub⟩
        | ok b =>
            cases b with
            | true => exact ⟨ih.1, hsub⟩
            | false =>
                cases hr : env.removeOk d with
                | false => simp only [hr, Bool.false_eq_true, if_false]; exact ⟨ih.1, hsub⟩
                | true =>
                    simp only [hr, if_true]
                    refine ⟨?_, List.cons_subset_cons d ih.2⟩
                    intro hmem
                    rcases List.mem_cons.mp hmem with h | h
                    · exact hd h.symm
                    · exact ih.1 h
      · rw [if_neg hd]
        exact ⟨ih.1, hsub⟩

/-- A sweep environment where every directory is reported unused and
removable. -/
def cleanupEnvW : CleanupEnv := ⟨fun _ => .ok false, fun _ => true⟩

theorem cleanup_sweep_frame_witness :
    cleanup_sweep cleanupEnvW ["a.r", "cur.r"] "cur.r" = ["a.r"] ∧
    "cur.r" ∉ cleanup_sweep cleanupEnvW ["a.r", "cur.r"] "cur.r" :=
  ⟨by decide, (cleanup_sweep_frame cleanupEnvW ["a.r", "cur.r"] "cur.r").1⟩

/-- C7: an in-use detection error or a deletion error for a stale directory
is swallowed: the sweep's behaviour on the remaining directories is exactly
as if the failing directory were absent (it never terminates the sweep and
no error is surfaced, the sweep being a total function), and a directory
whose in-use status could not be determined, or whose removal fails, is
never removed. -/
theorem cleanup_failures_swallowed (env : CleanupEnv) (current_dir d : String)
    (rest : List String) (e : String) :
    (env.inUse d = .error e →
       cleanup_sweep env (d :: rest) current_dir =
         cleanup_sweep env rest current_dir ∧
       ∀ dirs, d ∉ cleanup_sweep env dirs current_dir) ∧
    (env.inUse d = .ok false → env.removeOk d = false →
       cleanup_sweep env (d :: rest) current_dir =
         cleanup_sweep env rest current_dir ∧
       ∀ dirs, d ∉ cleanup_sweep env dirs current_dir) := by
  constructor
  · intro h
    refine ⟨?_, cleanup_sweep_not_removed env current_dir d (Or.inl (by simp [h]))⟩
    rw [cleanup_sweep]
    by_cases hd : d ≠ current_dir
    · rw [if_pos hd, h]
    · rw [if_neg hd]
  · intro h hr
    refine ⟨?_, cleanup_sweep_not_removed env current_dir d (Or.inr hr)⟩
    rw [cleanup_sweep]
    by_cases hd : d ≠ current_dir
    · rw [if_pos hd, h]
      simp only [hr, Bool.false_eq_true, if_false]
    · rw [if_neg hd]

/-- A sweep environment where in-use detection fails for `"err.r"` and
everything else is unused and removable. -/
def cleanupEnvE : CleanupEnv :=
  ⟨fun n => if n = "err.r" then .error "probe failed" else .ok false,
   fun _ => true⟩

theorem cleanup_failures_swallowed_witness :
    cleanup_sweep cleanupEnvE ["err.r", "ok.r"] "cur.r" =
      cleanup_sweep cleanupEnvE ["ok.r"] "cur.r" ∧
    "err.r" ∉ cleanup_sweep cleanupEnvE ["err.r", "ok.r"] "cur.r" := by
  have h := (cleanup_failures_swallowed cleanupEnvE "cur.r" "err.r" ["ok.r"]
    "probe failed").1 (by simp [cleanupEnvE])
  exact ⟨h.1, h.2 ["err.r", "ok.r"]⟩

/-! ### Exit code and wait theorems -/

/-- C3: the launcher's own process exit code equals the child's exit code
when one is available, and is the fixed fallback code 11
(`EXIT_GARDEN_SEA_ERROR`) when the child was terminated by a signal and no
code is recoverable. -/
theorem exit_code_propagation (c : Int) :
    main_exit_code (wait true (.ok (some c))) = some c ∧
    main_exit_code (wait true (.ok none)) = some EXIT_GARDEN_SEA_ERROR ∧
    EXIT_GARDEN_SEA_ERROR = 11 :=
  ⟨rfl, rfl, rfl⟩

/-- C8 counterexample: when the OS wait itself fails, the waiter thread's
`expect` panics (and the `expect` on the join re-raises in the main thread);
the outcome is a panic, not the degraded no-code outcome the claim
requires. -/
theorem wait_error_panics_cex :
    wait true (.error "waitpid failed") = .panicked ∧
    wait true (.error "waitpid failed") ≠ .ok none := by
  exact ⟨rfl, by decide⟩

/-- C8 amended: when the OS wait succeeds but the exit status carries no
code (child reaped by a signal), `wait` degrades to the no-code outcome and
`main` exits with the fallback code; but when the OS wait call itself fails,
the launcher panics via `expect` rather than degrading. -/
theorem wait_anomaly_behavior (e : String) :
    wait true (.ok none) = .ok none ∧
    main_exit_code (wait true (.ok none)) = some EXIT_GARDEN_SEA_ERROR ∧
    wait true (.error e) = .panicked :=
  ⟨rfl, rfl, rfl⟩

/-! ### Spawn argument theorems -/

/-- C10: `spawn_garden` drops the first element of the caller-supplied
argument iterator and the child's argument vector ends with the generation
directory's `rollup/garden.mjs` script path followed by exactly the
remaining elements, in order. -/
theorem spawn_args_script_then_rest (genv : SpawnEnv) (path prog : String)
    (rest : List String) :
    (spawn_args genv path (prog :: rest)).2 =
      node_args_before_script genv path ++
        (pathJoin (pathJoin path "rollup") "garden.mjs" :: rest) := by
  by_cases hf : genv.flamegraph.getD "false" = "true" ∨
      genv.flamegraph.getD "false" = "1"
  · simp [spawn_args, node_args_before_script, hf, List.append_assoc]
  · simp [spawn_args, node_args_before_script, hf, List.append_assoc]

/-! ### Generation-name ordering theorems -/

/-- C9 counterexample: the timestamp is formatted with no left padding, so
decimal representations of different lengths break the claimed agreement of
lexicographic and chronological order: `9 < 10`, yet `"9-aaaaaaa.r"` does
not sort before `"10-aaaaaaa.r"` (it sorts after, since `'9' > '1'`). -/
theorem genDirName_order_cex :
    (9 : Nat) < 10 ∧
    strLtB (genDirName 9 "aaaaaaa") (genDirName 10 "aaaaaaa") = false ∧
    strLtB (genDirName 10 "aaaaaaa") (genDirName 9 "aaaaaaa") = true := by
  exact ⟨by decide, by decide, by decide⟩

/-- C9 amended: lexicographic order on generation directory names agrees
with chronological order of the encoded timestamps whenever the two
timestamps have decimal representations of the same length (which holds for
all realistic pairs of launch times, e.g. any two timestamps between 2001
and 2286): `name(t₁, s₁)` sorts before `name(t₂, s₂)` whenever `t₁ < t₂`
and the digit counts agree, for all suffixes `s₁`, `s₂`. -/
theorem genDirName_lt_of_ts_lt (t₁ t₂ : Nat) (s₁ s₂ : String)
    (hlt : t₁ < t₂)
    (hlen : (natDecimalDigitsN t₁).length = (natDecimalDigitsN t₂).length) :
    strLtB (genDirName t₁ s₁) (genDirName t₂ s₂) = true := by
  show lexLt ((natDecimalDigits t₁ ++ ('-' :: s₁.data)) ++ ['.', 'r'])
      ((natDecimalDigits t₂ ++ ('-' :: s₂.data)) ++ ['.', 'r']) = true
  rw [List.append_assoc, List.append_assoc]
  apply lexLt_append_of_eqlen
  · simp [natDecimalDigits, hlen]
  · apply lexLt_map_digitChar _ _ (natDecimalDigitsN_lt_ten t₁)
      (natDecimalDigitsN_lt_ten t₂) hlen
    rw [ofDigitsBE_natDecimalDigitsN, ofDigitsBE_natDecimalDigitsN]
    exact hlt

theorem genDirName_lt_of_ts_lt_witness :
    strLtB (genDirName 100 "zzzzzzz") (genDirName 200 "aaaaaaa") = true :=
  genDirName_lt_of_ts_lt 100 200 "zzzzzzz" "aaaaaaa" (by decide) (by decide)

/-! ### Sorting and latest-candidate lemmas -/

theorem insertName_perm (x : String) (l : List String) :
    List.Perm (insertName x l) (x :: l) := by
  induction l with
  | nil => exact List.Perm.refl _
  | cons y ys ih =>
      rw [insertName]
      by_cases h : strLtB y x
      · simp only [h, if_true]
        exact (ih.cons y).trans (List.Perm.swap x y ys)
      · simp only [h, Bool.false_eq_true, if_false]
        exact List.Perm.refl _

theorem sortNames_perm (l : List String) : List.Perm (sortNames l) l := by
  induction l with
  | nil => exact List.Perm.refl _
  | cons x xs ih =>
      exact (insertName_perm x (sortNames xs)).trans (ih.cons x)

theorem getLast?_not_mem_dropLast (l : List String) (p : String)
    (hnd : l.Nodup) (h : l.getLast? = some p) : p ∉ l.dropLast := by
  have heq : l.dropLast ++ [p] = l := List.dropLast_append_getLast? p h
  intro hmem
  rw [← heq] at hnd
  rcases List.nodup_append.mp hnd with ⟨-, -, hdisj⟩
  exact hdisj hmem (List.mem_singleton_self p)

theorem mem_of_getLast?_eq (l : List String) (p : String)
    (h : l.getLast? = some p) : p ∈ l := by
  have heq : l.dropLast ++ [p] = l := List.dropLast_append_getLast? p h
  rw [← heq]
  exact List.mem_append.mpr (Or.inr (List.mem_singleton_self p))

theorem rDirNames_cons_dir (g : GenDir) (rest : FsState) :
    rDirNames (.dir g :: rest) =
      if hasDotRExt g.name then g.name :: rDirNames rest else rDirNames rest := by
  by_cases hx : hasDotRExt g.name = true
  · simp [rDirNames, List.filterMap_cons, hx]
  · simp [rDirNames, List.filterMap_cons, hx]

theorem rDirNames_cons_file (n : String) (rest : FsState) :
    rDirNames (.file n :: rest) = rDirNames rest := rfl

theorem dirExistsIn_of_mem_rDirNames (st : FsState) (p : String)
    (h : p ∈ rDirNames st) : dirExistsIn st p = true := by
  induction st with
  | nil => simp [rDirNames] at h
  | cons e rest ih =>
      cases e with
      | file n =>
          rw [rDirNames_cons_file] at h
          simpa [dirExistsIn, lookupDir] using ih h
      | dir g =>
          by_cases hg : g.name = p
          · simp [dirExistsIn, lookupDir, hg]
          · rw [rDirNames_cons_dir] at h
            have h' : p ∈ rDirNames rest := by
              by_cases hx : hasDotRExt g.name = true
              · rw [if_pos hx] at h
                rcases List.mem_cons.mp h with h0 | h0
                · exact absurd h0.symm hg
                · exact h0
              · rwa [if_neg hx] at h
            simpa [dirExistsIn, lookupDir, hg] using ih h'

/-- A candidate latest returned by `find_existing_extract_dirs` is one of
the directories already present under the root. -/
theorem dirExistsIn_of_latest (st : FsState) (p : String)
    (hp : (find_existing_extract_dirs st).1 = some p) :
    dirExistsIn st p = true := by
  have hmem : p ∈ sortNames (rDirNames st) :=
    mem_of_getLast?_eq _ p hp
  exact dirExistsIn_of_mem_rDirNames st p ((sortNames_perm _).mem_iff.mp hmem)

/-! ### The cleanup-candidate list handed to the sweeper -/

/-- Whatever path `extract_archives_if_needed` takes, the list it hands to
`start_cleanup_thread` is the `older_dirs` component of the original
listing: all sorted `.r` directories except the popped candidate latest. -/
theorem extract_ok_cleanupDirs (store : ArtifactStore) (orc : FsOracle)
    (fresh : List (Nat × String)) (st : FsState) (r : ExtractResult)
    (h : extract_archives_if_needed store orc fresh st = .ok r) :
    r.cleanupDirs = (find_existing_extract_dirs st).2 := by
  rw [extract_archives_if_needed] at h
  cases hcl : check_latest store orc st with
  | error e => rw [hcl] at h; cases h
  | ok o =>
      cases o with
      | some p =>
          rw [hcl] at h
          cases h
          rfl
      | none =>
          rw [hcl] at h
          clear hcl
          induction fresh with
          | nil => cases h
          | cons ts rest ih =>
              obtain ⟨t, s⟩ := ts
              rw [extract_fresh_loop] at h
              by_cases he : entryExists st (genDirName t s) = true
              · rw [if_pos he] at h
                exact ih h
              · rw [if_neg he] at h
                cases hgen : extract_new_generation store orc (genDirName t s) st with
                | error e => rw [hgen] at h; cases h
                | ok st5 =>
                    rw [hgen] at h
                    cases h
                    rfl

/-! ### C1: an unreadable marker aborts the launch -/

/-- C1 counterexample state: one generation directory whose `bin` marker
file exists (with the correct digest, even), under an oracle where
`fs::read` fails. -/
def stC1 : FsState :=
  [.dir ⟨"100-aaaaaaa.r", [("bin.sha256sum", [0])], []⟩]

/-- A concrete artifact store with the standard four names. -/
def storeW : ArtifactStore :=
  ⟨⟨"bin", [0]⟩, ⟨"native", [1]⟩, ⟨"static", [2]⟩, ⟨"source", [3]⟩⟩

/-- Oracle under which every filesystem operation succeeds. -/
def orcAll : FsOracle := ⟨fun _ _ => true, fun _ _ => true, fun _ _ => true⟩

/-- Oracle under which every `fs::read` fails but everything else works. -/
def orcNoRead : FsOracle := ⟨fun _ _ => false, fun _ _ => true, fun _ _ => true⟩

/-- C1 counterexample: with a candidate latest whose `bin` digest marker
exists but cannot be read, `extract_archives_if_needed` returns the
propagated read error — it does not classify the generation as invalid and
does not proceed to create and return a new generation. -/
theorem read_error_aborts_cex :
    extract_archives_if_needed storeW orcNoRead [(300, "ccccccc")] stC1 =
      .error "Failed read" := by decide

/-- A marker file that exists but cannot be read makes `is_extract_needed`
return the propagated read error. -/
theorem is_extract_needed_read_error (orc : FsOracle) (st : FsState)
    (d : String) (a : GardenArtifact)
    (hfile : fileExistsIn st d (markerName a) = true)
    (hread : orc.readOk d (markerName a) = false) :
    is_extract_needed orc st d a = .error "Failed read" := by
  simp [is_extract_needed, hfile, hread]

/-- An error from `extracts_needed` on the candidate latest aborts
`extract_archives_if_needed` with that error. -/
theorem extract_abort_of_extracts_needed_error (store : ArtifactStore)
    (orc : FsOracle) (fresh : List (Nat × String)) (st : FsState)
    (p e : String)
    (hp : (find_existing_extract_dirs st).1 = some p)
    (herr : extracts_needed orc st p store = .error e) :
    extract_archives_if_needed store orc fresh st = .error e := by
  have h3 : check_latest store orc st = .error e := by
    rw [check_latest, hp]
    simp only [herr]
  rw [extract_archives_if_needed, h3]

/-- C1 amended: for every artifact whose check is reached — `NODE_BINARY`
always, and each later artifact in the fixed check order whenever all the
earlier checks returned "valid" — if the artifact's digest marker file
exists but reading its bytes fails, `is_extract_needed` returns an error
rather than classifying the generation as invalid, and the error propagates
through `extracts_needed` and aborts `extract_archives_if_needed`: no new
generation is created or returned. -/
theorem read_error_aborts (store : ArtifactStore) (orc : FsOracle)
    (fresh : List (Nat × String)) (st : FsState) (p : String)
    (hp : (find_existing_extract_dirs st).1 = some p) :
    (fileExistsIn st p (markerName store.node_binary) = true →
     orc.readOk p (markerName store.node_binary) = false →
       is_extract_needed orc st p store.node_binary = .error "Failed read" ∧
       extract_archives_if_needed store orc fresh st = .error "Failed read") ∧
    (is_extract_needed orc st p store.node_binary = .ok false →
     fileExistsIn st p (markerName store.native_modules) = true →
     orc.readOk p (markerName store.native_modules) = false →
       is_extract_needed orc st p store.native_modules = .error "Failed read" ∧
       extract_archives_if_needed store orc fresh st = .error "Failed read") ∧
    (is_extract_needed orc st p store.node_binary = .ok false →
     is_extract_needed orc st p store.native_modules = .ok false →
     fileExistsIn st p (markerName store.static) = true →
     orc.readOk p (markerName store.static) = false →
       is_extract_needed orc st p store.static = .error "Failed read" ∧
       extract_archives_if_needed store orc fresh st = .error "Failed read") ∧
    (is_extract_needed orc st p store.node_binary = .ok false →
     is_extract_needed orc st p store.native_modules = .ok false →
     is_extract_needed orc st p store.static = .ok false →
     fileExistsIn st p (markerName store.source) = true →
     orc.readOk p (markerName store.source) = false →
       is_extract_needed orc st p store.source = .error "Failed read" ∧
       extract_archives_if_needed store orc fresh st = .error "Failed read") := by
  refine ⟨?_, ?_, ?_, ?_⟩
  · intro hfile hread
    have h1 := is_extract_needed_read_error orc st p store.node_binary hfile hread
    have h2 : extracts_needed orc st p store = .error "Failed read" := by
      simp only [extracts_needed, h1]
    exact ⟨h1, extract_abort_of_extracts_needed_error store orc fresh st p _ hp h2⟩
  · intro hok1 hfile hread
    have h1 := is_extract_needed_read_error orc st p store.native_modules hfile hread
    have h2 : extracts_needed orc st p store = .error "Failed read" := by
      simp only [extracts_needed, hok1, h1]
    exact ⟨h1, extract_abort_of_extracts_needed_error store orc fresh st p _ hp h2⟩
  · intro hok1 hok2 hfile hread
    have h1 := is_extract_needed_read_error orc st p store.static hfile hread
    have h2 : extracts_needed orc st p store = .error "Failed read" := by
      simp only [extracts_needed, hok1, hok2, h1]
    exact ⟨h1, extract_abort_of_extracts_needed_error store orc fresh st p _ hp h2⟩
  · intro hok1 hok2 hok3 hfile hread
    have h1 := is_extract_needed_read_error orc st p store.source hfile hread
    have h2 : extracts_needed orc st p store = .error "Failed read" := by
      simp only [extracts_needed, hok1, hok2, hok3, h1]
    exact ⟨h1, extract_abort_of_extracts_needed_error store orc fresh st p _ hp h2⟩

/-- Oracle for the C1 witness: every read succeeds except for the `source`
artifact's marker file. -/
def orcC1 : FsOracle :=
  ⟨fun _ f => f != "source.sha256sum", fun _ _ => true, fun _ _ => true⟩

/-- C1 witness state: a candidate latest whose first three markers are
present, readable and matching, so the `source` check is reached; the
`source` marker exists but its read fails under `orcC1`. -/
def stC1s : FsState :=
  [.dir ⟨"100-aaaaaaa.r",
    [("bin.sha256sum", [0]), ("native.sha256sum", [1]),
     ("static.sha256sum", [2]), ("source.sha256sum", [3])], []⟩]

theorem read_error_aborts_witness :
    is_extract_needed orcC1 stC1s "100-aaaaaaa.r" storeW.source =
      .error "Failed read" ∧
    extract_archives_if_needed storeW orcC1 [(400, "ddddddd")] stC1s =
      .error "Failed read" :=
  (read_error_aborts storeW orcC1 [(400, "ddddddd")] stC1s "100-aaaaaaa.r"
      (by decide)).2.2.2
    (by decide) (by decide) (by decide) (by decide) (by decide)

/-! ### C2: the superseded latest and the cleanup list -/

/-- C2 counterexample state: an older generation and an invalid candidate
latest (its marker files are missing). -/
def stC2 : FsState :=
  [.dir ⟨"100-aaaaaaa.r", [], []⟩, .dir ⟨"200-bbbbbbb.r", [], []⟩]

/-- C2 counterexample: the candidate latest `"200-bbbbbbb.r"` fails
validity and a new generation `"300-ccccccc.r"` is created, yet the list
handed to the Cleanup Sweeper contains only the older directory — the
superseded previous latest is not in it. -/
theorem superseded_latest_not_queued_cex :
    (extract_archives_if_needed storeW orcAll [(300, "ccccccc")] stC2).map
        (fun r => (r.current, r.cleanupDirs,
          decide ("200-bbbbbbb.r" ∈ r.cleanupDirs))) =
      .ok ("300-ccccccc.r", ["100-aaaaaaa.r"], false) := by decide

/-- C2 amended: when the candidate latest fails validity and a new
generation is created, the cleanup-candidate list handed to the Cleanup
Sweeper is exactly the older directories of the original listing — it does
NOT include the superseded previous latest, which is only collected by a
later run, once it is no longer the sorted-last directory. -/
theorem cleanup_list_excludes_superseded_latest (store : ArtifactStore)
    (orc : FsOracle) (fresh : List (Nat × String)) (st : FsState)
    (p : String) (r : ExtractResult)
    (hnd : (rDirNames st).Nodup)
    (hp : (find_existing_extract_dirs st).1 = some p)
    (_hneed : check_latest store orc st = .ok none)
    (hok : extract_archives_if_needed store orc fresh st = .ok r) :
    r.cleanupDirs = (find_existing_extract_dirs st).2 ∧
    p ∉ r.cleanupDirs := by
  have h1 := extract_ok_cleanupDirs store orc fresh st r hok
  refine ⟨h1, ?_⟩
  rw [h1]
  have hsortnd : (sortNames (rDirNames st)).Nodup :=
    (sortNames_perm (rDirNames st)).nodup_iff.mpr hnd
  exact getLast?_not_mem_dropLast _ p hsortnd hp

/-- The root contents after the C2 counterexample run: both old directories
plus the freshly extracted generation. -/
def stC2' : FsState :=
  stC2 ++ [.dir ⟨"300-ccccccc.r",
    [("bin.sha256sum", [0]), ("native.sha256sum", [1]),
     ("static.sha256sum", [2]), ("source.sha256sum", [3])],
    ["bin", "native", "static", "source"]⟩]

theorem cleanup_list_excludes_superseded_latest_witness :
    (⟨"300-ccccccc.r", stC2', ["100-aaaaaaa.r"]⟩ : ExtractResult).cleanupDirs =
      (find_existing_extract_dirs stC2).2 ∧
    "200-bbbbbbb.r" ∉
      (⟨"300-ccccccc.r", stC2', ["100-aaaaaaa.r"]⟩ : ExtractResult).cleanupDirs :=
  cleanup_list_excludes_superseded_latest storeW orcAll [(300, "ccccccc")] stC2
    "200-bbbbbbb.r" ⟨"300-ccccccc.r", stC2', ["100-aaaaaaa.r"]⟩
    (by decide) (by decide) (by decide) (by decide)

/-! ### State-tracking lemmas for the extraction path -/

theorem lookupDir_updateDir_self (st : FsState) (d : String) (f : GenDir → GenDir)
    (hf : ∀ g, (f g).name = g.name) :
    lookupDir (updateDir st d f) d = (lookupDir st d).map f := by
  induction st with
  | nil => rfl
  | cons e rest ih =>
      cases e with
      | file n => simpa [updateDir, lookupDir] using ih
      | dir g =>
          by_cases hg : g.name = d
          · simp [updateDir, lookupDir, hg, hf g]
          · simp [updateDir, lookupDir, hg, ih]

theorem lookupDir_eq_none_of_entryExists_false (st : FsState) (d : String)
    (h : entryExists st d = false) : lookupDir st d = none := by
  induction st with
  | nil => rfl
  | cons e rest ih =>
      rw [entryExists] at h
      simp only [List.any_cons, Bool.or_eq_false_iff] at h
      obtain ⟨h1, h2⟩ := h
      cases e with
      | file n => exact ih h2
      | dir g =>
          have hg : ¬ (g.name = d) := by simpa using h1
          simp only [lookupDir, hg, if_false]
          exact ih h2

theorem lookupDir_append_dir (st : FsState) (d : String) (g : GenDir)
    (hn : lookupDir st d = none) (hg : g.name = d) :
    lookupDir (st ++ [.dir g]) d = some g := by
  induction st with
  | nil => simp [lookupDir, hg]
  | cons e rest ih =>
      cases e with
      | file n =>
          rw [List.cons_append, lookupDir]
          rw [lookupDir] at hn
          exact ih hn
      | dir g' =>
          rw [List.cons_append]
          rw [lookupDir] at hn ⊢
          by_cases hgn : g'.name = d
          · rw [if_pos hgn] at hn; cases hn
          · rw [if_neg hgn] at hn ⊢; exact ih hn

theorem lookupDir_createDir (st : FsState) (d : String)
    (h : entryExists st d = false) :
    lookupDir (createDir st d) d = some ⟨d, [], []⟩ :=
  lookupDir_append_dir st d ⟨d, [], []⟩
    (lookupDir_eq_none_of_entryExists_false st d h) rfl

theorem getAssoc_setAssoc_self (l : List (String × List Nat)) (k : String)
    (v : List Nat) : getAssoc (setAssoc l k v) k = some v := by
  induction l with
  | nil => simp [setAssoc, getAssoc]
  | cons kv rest ih =>
      obtain ⟨k', v'⟩ := kv
      by_cases h : k' = k
      · simp [setAssoc, getAssoc, h]
      · simp [setAssoc, getAssoc, h, ih]

theorem getAssoc_setAssoc_ne (l : List (String × List Nat)) (k k' : String)
    (v : List Nat) (h : k ≠ k') :
    getAssoc (setAssoc l k v) k' = getAssoc l k' := by
  induction l with
  | nil => simp [setAssoc, getAssoc, h]
  | cons kv rest ih =>
      obtain ⟨k₀, v₀⟩ := kv
      by_cases h0 : k₀ = k
      · simp [setAssoc, getAssoc, h0, h]
      · simp [setAssoc, getAssoc, h0, ih]

/-- Successful `extract_archive` means the unpack and the marker write both
succeeded, and the state is the unpack followed by the marker write. -/
theorem extract_archive_ok (orc : FsOracle) (d : String) (a : GardenArtifact)
    (st st' : FsState) (h : extract_archive orc d a st = .ok st') :
    orc.unpackOk d a.name = true ∧ orc.writeOk d (markerName a) = true ∧
    st' = writeFile (markUnpacked st d a.name) d (markerName a) a.sha256 := by
  rw [extract_archive] at h
  by_cases h1 : orc.unpackOk d a.name = true
  · rw [if_pos h1] at h
    by_cases h2 : orc.writeOk d (markerName a) = true
    · rw [if_pos h2] at h
      cases h
      exact ⟨h1, h2, rfl⟩
    · rw [if_neg h2] at h; cases h
  · rw [if_neg h1] at h; cases h

theorem lookupDir_extract_archive (orc : FsOracle) (d : String)
    (a : GardenArtifact) (st st' : FsState) (g : GenDir)
    (h : extract_archive orc d a st = .ok st')
    (hg : lookupDir st d = some g) :
    lookupDir st' d =
      some ⟨g.name, setAssoc g.files (markerName a) a.sha256,
        g.unpacked ++ [a.name]⟩ := by
  obtain ⟨-, -, rfl⟩ := extract_archive_ok orc d a st st' h
  rw [writeFile, markUnpacked,
    lookupDir_updateDir_self (updateDir st d
        (fun g' => { g' with unpacked := g'.unpacked ++ [a.name] })) d
      (fun g' => { g' with files := setAssoc g'.files (markerName a) a.sha256 })
      (fun g' => rfl),
    lookupDir_updateDir_self st d
      (fun g' => { g' with unpacked := g'.unpacked ++ [a.name] })
      (fun g' => rfl), hg]
  rfl

/-- The generation directory's contents after a successful
`extract_new_generation`: the four markers in extraction order, and the
four artifacts recorded as unpacked, each marker entered only in the branch
where its artifact's unpack succeeded. -/
theorem extract_new_generation_ok (store : ArtifactStore) (orc : FsOracle)
    (dn : String) (st st5 : FsState)
    (hne : entryExists st dn = false)
    (h : extract_new_generation store orc dn st = .ok st5) :
    lookupDir st5 dn = some ⟨dn,
      setAssoc (setAssoc (setAssoc (setAssoc []
            (markerName store.node_binary) store.node_binary.sha256)
          (markerName store.native_modules) store.native_modules.sha256)
        (markerName store.static) store.static.sha256)
      (markerName store.source) store.source.sha256,
      [store.node_binary.name, store.native_modules.name, store.static.name,
       store.source.name]⟩ := by
  rw [extract_new_generation] at h
  cases h2 : extract_archive orc dn store.node_binary (createDir st dn) with
  | error e => rw [h2] at h; cases h
  | ok st2 =>
    rw [h2] at h
    simp only [] at h
    cases h3 : extract_archive orc dn store.native_modules st2 with
    | error e => rw [h3] at h; cases h
    | ok st3 =>
      rw [h3] at h
      simp only [] at h
      cases h4 : extract_archive orc dn store.static st3 with
      | error e => rw [h4] at h; cases h
      | ok st4 =>
        rw [h4] at h
        simp only [] at h
        cases h5 : extract_archive orc dn store.source st4 with
        | error e => rw [h5] at h; cases h
        | ok st5' =>
          rw [h5] at h
          simp only [] at h
          cases h
          have l1 := lookupDir_extract_archive orc dn store.node_binary _ _ _
            h2 (lookupDir_createDir st dn hne)
          have l2 := lookupDir_extract_archive orc dn store.native_modules _ _ _
            h3 l1
          have l3 := lookupDir_extract_archive orc dn store.static _ _ _ h4 l2
          have l4 := lookupDir_extract_archive orc dn store.source _ _ _ h5 l3
          simpa using l4

/-- The marker files readable in a freshly extracted generation: each of
the four artifacts' markers holds exactly its expected digest bytes, and
all four artifacts are recorded as unpacked. -/
theorem extract_new_generation_reads (store : ArtifactStore) (orc : FsOracle)
    (dn : String) (st st5 : FsState)
    (hstd : store.standardNames)
    (hne : entryExists st dn = false)
    (h : extract_new_generation store orc dn st = .ok st5) :
    readFileIn st5 dn (markerName store.node_binary) =
        some store.node_binary.sha256 ∧
    readFileIn st5 dn (markerName store.native_modules) =
        some store.native_modules.sha256 ∧
    readFileIn st5 dn (markerName store.static) = some store.static.sha256 ∧
    readFileIn st5 dn (markerName store.source) = some store.source.sha256 ∧
    unpackedIn st5 dn = [store.node_binary.name, store.native_modules.name,
      store.static.name, store.source.name] := by
  obtain ⟨h1, h2, h3, h4⟩ := hstd
  have hl := extract_new_generation_ok store orc dn st st5 hne h
  have n21 : markerName store.native_modules ≠ markerName store.node_binary := by
    simp only [markerName, h1, h2]; decide
  have n31 : markerName store.static ≠ markerName store.node_binary := by
    simp only [markerName, h1, h3]; decide
  have n41 : markerName store.source ≠ markerName store.node_binary := by
    simp only [markerName, h1, h4]; decide
  have n32 : markerName store.static ≠ markerName store.native_modules := by
    simp only [markerName, h2, h3]; decide
  have n42 : markerName store.source ≠ markerName store.native_modules := by
    simp only [markerName, h2, h4]; decide
  have n43 : markerName store.source ≠ markerName store.static := by
    simp only [markerName, h3, h4]; decide
  refine ⟨?_, ?_, ?_, ?_, ?_⟩
  · simp only [readFileIn, hl, Option.some_bind]
    rw [getAssoc_setAssoc_ne _ _ _ _ n41, getAssoc_setAssoc_ne _ _ _ _ n31,
      getAssoc_setAssoc_ne _ _ _ _ n21, getAssoc_setAssoc_self]
  · simp only [readFileIn, hl, Option.some_bind]
    rw [getAssoc_setAssoc_ne _ _ _ _ n42, getAssoc_setAssoc_ne _ _ _ _ n32,
      getAssoc_setAssoc_self]
  · simp only [readFileIn, hl, Option.some_bind]
    rw [getAssoc_setAssoc_ne _ _ _ _ n43, getAssoc_setAssoc_self]
  · simp only [readFileIn, hl, Option.some_bind]
    rw [getAssoc_setAssoc_self]
  · simp [unpackedIn, hl]

/-- When `check_latest` declares the candidate latest `p` valid, `p` is the
candidate produced by the directory listing. -/
theorem latest_of_check_latest_some (store : ArtifactStore) (orc : FsOracle)
    (st : FsState) (p : String)
    (h : check_latest store orc st = .ok (some p)) :
    (find_existing_extract_dirs st).1 = some p := by
  rw [check_latest] at h
  cases hf : (find_existing_extract_dirs st).1 with
  | none => rw [hf] at h; cases h
  | some q =>
      rw [hf] at h
      simp only [] at h
      cases hn : extracts_needed orc st q store with
      | error e => rw [hn] at h; cases h
      | ok needed =>
          rw [hn] at h
          simp only [] at h
          cases needed with
          | true => simp at h
          | false => simpa using h

/-- C4: when `extract_archives_if_needed` succeeds and returns a
generation directory that did not previously exist (i.e. a newly created
one), every one of the four artifacts has been unpacked into it and its
digest marker file holds exactly the artifact's expected digest bytes; no
partially extracted directory is ever returned. -/
theorem new_generation_fully_extracted (store : ArtifactStore)
    (orc : FsOracle) (fresh : List (Nat × String)) (st : FsState)
    (r : ExtractResult)
    (hstd : store.standardNames)
    (hok : extract_archives_if_needed store orc fresh st = .ok r)
    (hnew : dirExistsIn st r.current = false) :
    ∀ a ∈ [store.node_binary, store.native_modules, store.static,
        store.source],
      readFileIn r.fs r.current (markerName a) = some a.sha256 ∧
      a.name ∈ unpackedIn r.fs r.current := by
  rw [extract_archives_if_needed] at hok
  cases hcl : check_latest store orc st with
  | error e => rw [hcl] at hok; cases hok
  | ok o =>
      cases o with
      | some p =>
          rw [hcl] at hok
          cases hok
          dsimp only at hnew
          have h1 := dirExistsIn_of_latest st p
            (latest_of_check_latest_some store orc st p hcl)
          rw [h1] at hnew
          cases hnew
      | none =>
          rw [hcl] at hok
          clear hcl
          induction fresh with
          | nil => cases hok
          | cons ts rest ih =>
              obtain ⟨t, s⟩ := ts
              rw [extract_fresh_loop] at hok
              by_cases he : entryExists st (genDirName t s) = true
              · rw [if_pos he] at hok
                exact ih hok
              · rw [if_neg he] at hok
                cases hgen : extract_new_generation store orc
                    (genDirName t s) st with
                | error e => rw [hgen] at hok; cases hok
                | ok st5 =>
                    rw [hgen] at hok
                    cases hok
                    have hne : entryExists st (genDirName t s) = false :=
                      Bool.eq_false_iff.mpr he
                    obtain ⟨m1, m2, m3, m4, hu⟩ :=
                      extract_new_generation_reads store orc (genDirName t s)
                        st st5 hstd hne hgen
                    intro a ha
                    dsimp only
                    simp only [List.mem_cons, List.not_mem_nil, or_false] at ha
                    rcases ha with rfl | rfl | rfl | rfl
                    · exact ⟨m1, by rw [hu]; exact List.mem_cons_self _ _⟩
                    · exact ⟨m2, by rw [hu]; simp⟩
                    · exact ⟨m3, by rw [hu]; simp⟩
                    · exact ⟨m4, by rw [hu]; simp⟩

theorem new_generation_fully_extracted_witness :
    readFileIn stC2' "300-ccccccc.r" (markerName storeW.node_binary) =
        some storeW.node_binary.sha256 ∧
    "bin" ∈ unpackedIn stC2' "300-ccccccc.r" := by
  have h := new_generation_fully_extracted storeW orcAll [(300, "ccccccc")]
    stC2 ⟨"300-ccccccc.r", stC2', ["100-aaaaaaa.r"]⟩ (by decide) (by decide)
    (by decide) storeW.node_binary (by simp)
  exact h

/-! ### C5: idempotence of extraction -/

theorem rDirNames_updateDir (st : FsState) (d : String) (f : GenDir → GenDir)
    (hf : ∀ g, (f g).name = g.name) :
    rDirNames (updateDir st d f) = rDirNames st := by
  induction st with
  | nil => rfl
  | cons e rest ih =>
      cases e with
      | file n =>
          rw [updateDir, rDirNames_cons_file, rDirNames_cons_file]
          exact ih
      | dir g =>
          by_cases hg : g.name = d
          · rw [updateDir, if_pos hg, rDirNames_cons_dir, rDirNames_cons_dir,
              hf g]
          · rw [updateDir, if_neg hg, rDirNames_cons_dir, rDirNames_cons_dir,
              ih]

theorem rDirNames_writeFile (st : FsState) (d fname : String) (v : List Nat) :
    rDirNames (writeFile st d fname v) = rDirNames st :=
  rDirNames_updateDir st d
    (fun g => { g with files := setAssoc g.files fname v }) (fun _ => rfl)

theorem rDirNames_markUnpacked (st : FsState) (d aname : String) :
    rDirNames (markUnpacked st d aname) = rDirNames st :=
  rDirNames_updateDir st d
    (fun g => { g with unpacked := g.unpacked ++ [aname] }) (fun _ => rfl)

theorem rDirNames_extract_archive (orc : FsOracle) (d : String)
    (a : GardenArtifact) (st st' : FsState)
    (h : extract_archive orc d a st = .ok st') :
    rDirNames st' = rDirNames st := by
  obtain ⟨-, -, rfl⟩ := extract_archive_ok orc d a st st' h
  rw [writeFile, markUnpacked]
  rw [rDirNames_updateDir _ _
      (fun g => { g with files := setAssoc g.files (markerName a) a.sha256 })
      (fun _ => rfl),
    rDirNames_updateDir _ _
      (fun g => { g with unpacked := g.unpacked ++ [a.name] }) (fun _ => rfl)]

theorem extract_new_generation_inv (store : ArtifactStore) (orc : FsOracle)
    (dn : String) (st st5 : FsState)
    (h : extract_new_generation store orc dn st = .ok st5) :
    ∃ st2 st3 st4,
      extract_archive orc dn store.node_binary (createDir st dn) = .ok st2 ∧
      extract_archive orc dn store.native_modules st2 = .ok st3 ∧
      extract_archive orc dn store.static st3 = .ok st4 ∧
      extract_archive orc dn store.source st4 = .ok st5 := by
  rw [extract_new_generation] at h
  cases h2 : extract_archive orc dn store.node_binary (createDir st dn) with
  | error e => rw [h2] at h; cases h
  | ok st2 =>
    rw [h2] at h
    simp only [] at h
    cases h3 : extract_archive orc dn store.native_modules st2 with
    | error e => rw [h3] at h; cases h
    | ok st3 =>
      rw [h3] at h
      simp only [] at h
      cases h4 : extract_archive orc dn store.static st3 with
      | error e => rw [h4] at h; cases h
      | ok st4 =>
        rw [h4] at h
        simp only [] at h
        cases h5 : extract_archive orc dn store.source st4 with
        | error e => rw [h5] at h; cases h
        | ok st5' =>
          rw [h5] at h
          simp only [] at h
          cases h
          exact ⟨st2, st3, st4, rfl, h3, h4, h5⟩

theorem rDirNames_extract_new_generation (store : ArtifactStore)
    (orc : FsOracle) (dn : String) (st st5 : FsState)
    (h : extract_new_generation store orc dn st = .ok st5) :
    rDirNames st5 = rDirNames (createDir st dn) := by
  obtain ⟨st2, st3, st4, h2, h3, h4, h5⟩ :=
    extract_new_generation_inv store orc dn st st5 h
  rw [rDirNames_extract_archive _ _ _ _ _ h5,
    rDirNames_extract_archive _ _ _ _ _ h4,
    rDirNames_extract_archive _ _ _ _ _ h3,
    rDirNames_extract_archive _ _ _ _ _ h2]

theorem rDirNames_createDir (st : FsState) (dn : String) :
    rDirNames (createDir st dn) =
      rDirNames st ++ (if hasDotRExt dn then [dn] else []) := by
  rw [createDir, rDirNames, List.filterMap_append]
  by_cases hx : hasDotRExt dn = true
  · simp [rDirNames, hx]
  · simp [rDirNames, hx]

/-- C5: for an unchanged Artifact Store, running
`extract_archives_if_needed` a second time against the root produced by a
completed first run (from an empty root) returns the first run's generation
directory unchanged — every marker exists and byte-equals its expected
digest, so validity passes — and creates no new generation directory. -/
theorem extract_idempotent (store : ArtifactStore) (orc₁ orc₂ : FsOracle)
    (t : Nat) (s : String) (fresh₁ fresh₂ : List (Nat × String))
    (r : ExtractResult)
    (hstd : store.standardNames)
    (hr : ∀ fname, orc₂.readOk (genDirName t s) fname = true)
    (hok : extract_archives_if_needed store orc₁ ((t, s) :: fresh₁) [] = .ok r) :
    extract_archives_if_needed store orc₂ fresh₂ r.fs = .ok ⟨r.current, r.fs, []⟩ := by
  have hcl : check_latest store orc₁ [] = .ok none := rfl
  rw [extract_archives_if_needed, hcl] at hok
  simp only [] at hok
  rw [extract_fresh_loop, if_neg (by simp [entryExists])] at hok
  cases hgen : extract_new_generation store orc₁ (genDirName t s) [] with
  | error e => rw [hgen] at hok; cases hok
  | ok st5 =>
      rw [hgen] at hok
      simp only [] at hok
      cases hok
      dsimp only
      have hne : entryExists ([] : FsState) (genDirName t s) = false := rfl
      obtain ⟨hm1, hm2, hm3, hm4, -⟩ :=
        extract_new_generation_reads store orc₁ (genDirName t s) [] st5 hstd
          hne hgen
      have hdirs : rDirNames st5 = [genDirName t s] := by
        rw [rDirNames_extract_new_generation store orc₁ _ _ _ hgen,
          rDirNames_createDir, hasDotRExt_genDirName]
        rfl
      have hfe1 : (find_existing_extract_dirs st5).1 = some (genDirName t s) := by
        rw [find_existing_extract_dirs]
        dsimp only
        rw [hdirs]
        rfl
      have hfe2 : (find_existing_extract_dirs st5).2 = [] := by
        rw [find_existing_extract_dirs]
        dsimp only
        rw [hdirs]
        rfl
      have hn1 : is_extract_needed orc₂ st5 (genDirName t s) store.node_binary
          = .ok false := by
        simp [is_extract_needed, fileExistsIn, hm1, hr]
      have hn2 : is_extract_needed orc₂ st5 (genDirName t s)
          store.native_modules = .ok false := by
        simp [is_extract_needed, fileExistsIn, hm2, hr]
      have hn3 : is_extract_needed orc₂ st5 (genDirName t s) store.static
          = .ok false := by
        simp [is_extract_needed, fileExistsIn, hm3, hr]
      have hn4 : is_extract_needed orc₂ st5 (genDirName t s) store.source
          = .ok false := by
        simp [is_extract_needed, fileExistsIn, hm4, hr]
      have hext : extracts_needed orc₂ st5 (genDirName t s) store = .ok false := by
        simp only [extracts_needed, hn1, hn2, hn3, hn4]
      have hcl2 : check_latest store orc₂ st5 = .ok (some (genDirName t s)) := by
        rw [check_latest, hfe1]
        simp [hext]
      rw [extract_archives_if_needed, hcl2]
      simp only []
      rw [hfe2]

/-- The root contents after a completed first run from an empty root at
timestamp 100 with suffix `"aaaaaaa"`. -/
def stIdem : FsState :=
  [.dir ⟨"100-aaaaaaa.r",
    [("bin.sha256sum", [0]), ("native.sha256sum", [1]),
     ("static.sha256sum", [2]), ("source.sha256sum", [3])],
    ["bin", "native", "static", "source"]⟩]

theorem extract_idempotent_witness :
    extract_archives_if_needed storeW orcAll [] stIdem =
      .ok ⟨"100-aaaaaaa.r", stIdem, []⟩ := by
  have h := extract_idempotent storeW orcAll orcAll 100 "aaaaaaa" [] []
    ⟨"100-aaaaaaa.r", stIdem, []⟩ (by decide) (fun _ => rfl) (by decide)
  exact h

end GardenSea
